import Mathlib

/-!
Verification of the `rotator` package of moshee/logrotate.

The Go source (src/rotator/rotator.go) is shallowly embedded below.
Bytes are modelled as `Nat`, file contents as `List Nat`, file names as
`String`s free of path separators (the rotator's base filename is taken
relative to its directory; `filepath.Dir`/`Join` leave a relative base
as a plain name).

Part 1 — ingestion-loop model. `Rotator.Run` reads lines from a
`bufio.Scanner` and writes each line plus a newline to the active file,
rotating first whenever `r.size >= r.threshold`. The chain of retired
segments (produced by the rename in `rotate`) is kept as a list of
contents in rotation order. The operating system's reported write counts
(`n, _ := r.out.Write(line)`; `m, _ := r.out.Write([]byte{'\n'})`) are
inputs of each step, since the code ignores write errors and trusts the
reported counts. The fields `seed` and `reported` are ghost
instrumentation: `seed` records the active file's length at the moment
the current handle was created, `reported` the write counts reported
since then; both change only where the real code creates or replaces the
handle or writes, and no executable behaviour reads them.

Part 2 — rotation-index discovery (rotator.go:86-117). `rotate` globs
the base file's directory for `base.*`, splits every match on `'.'`,
drops a trailing `gz` component, parses the trailing component with
`strconv.Atoi`, and keeps the running maximum starting from 0; the new
segment gets index `maxNum + 1`.

Part 3 — directory state, rotation hand-off, background compression and
shutdown (rotator.go:80-160). A directory is an association list from
file names to contents; `rotate` renames the base file to the chosen
`rotname` and reopens the base name; `compress` runs as a background
task whose fallible steps are driven by an injected-failure oracle;
`Close` closes the active handle and then drains the outstanding task
set. The gzip encoding itself is a parameter `gz` of the compression
model — no claim depends on the encoded bytes.
-/

set_option autoImplicit false

namespace Logrotate

/-- Byte 10, the newline terminator `'\n'` appended after every line. -/
def newlineByte : Nat := 10

/-- One loop iteration's input: the scanned line (without its terminator,
as `bufio.Scanner.Bytes` strips it) and the byte counts `n`, `m` the two
`Write` calls report back. -/
structure Step where
  line : List Nat
  n : Nat
  m : Nat

/-- The mutable engine state of a `Rotator` (rotator.go:21-28), with the
filesystem effect of `rotate` abstracted to content movement: `active` is
the content of the file at the base filename, `retired` the contents of
the renamed-away segments in rotation order. `rotations` counts calls to
`rotate` (it indexes the failure oracle). `seed`/`reported` are ghost. -/
structure RotState where
  size : Int
  threshold : Int
  active : List Nat
  retired : List (List Nat)
  rotations : Nat
  seed : Int
  reported : Int

/-- Errors `rotate` can return (glob, close, rename, create — rotator.go:
86-138). Their precise identity is irrelevant to the loop, which only
propagates them. -/
inductive RotErr where
  | globErr
  | closeErr
  | renameErr
  | createErr
deriving DecidableEq

/-- Environment of a run: for each rotation (numbered from 0) whether the
filesystem makes `rotate` fail, and with which error. -/
structure Env where
  rotErr : Nat → Option RotErr

/-- `rotate` as it acts on the engine state (rotator.go:86-138, success
path): the handle is closed, the base file is renamed away (its content
becomes the newest retired segment), a fresh empty file is created at the
base filename and `r.size = 0`. Ghost: the new handle starts over empty,
so `seed` and `reported` reset. -/
def rotateM (o : RotState) : RotState :=
  { o with
    active := []
    retired := o.retired ++ [o.active]
    size := 0
    rotations := o.rotations + 1
    seed := 0
    reported := 0 }

/-- The two writes of one loop iteration (rotator.go:63-74): the file
receives the first `n` bytes of the line and the first `m` bytes of the
newline (a write reports how much it actually wrote), and
`r.size += int64(n + m)` uses exactly the reported counts. -/
def writeLine (o : RotState) (s : Step) : RotState :=
  { o with
    active := o.active ++ s.line.take s.n ++ List.take s.m [newlineByte]
    size := o.size + (s.n + s.m)
    reported := o.reported + (s.n + s.m) }

/-- The loop of `Rotator.Run` (rotator.go:56-77) over a finite list of
scanned lines: before writing a line, if `r.size >= r.threshold` then
`rotate` runs; a `rotate` error is returned at once, otherwise the line
is written and the loop continues. -/
def runSteps (env : Env) : RotState → List Step → Except RotErr RotState
  | o, [] => .ok o
  | o, s :: ss =>
    if o.threshold ≤ o.size then
      match env.rotErr o.rotations with
      | some e => .error e
      | none => runSteps env (writeLine (rotateM o) s) ss
    else
      runSteps env (writeLine o s) ss

/-- Reduction of an integer into the two's-complement `int64` range
`[-2^63, 2^63 - 1]`, the silent wrap Go applies to every `int64`
arithmetic result. -/
def wrap64 (z : Int) : Int :=
  (z + 2 ^ 63) % 2 ^ 64 - 2 ^ 63

/-- The state `New` builds (rotator.go:33-52): the base file is opened
with `O_CREATE|O_APPEND|O_RDWR` so an existing content stays and writes
append; `size` is seeded from `stat.Size()`, which equals the length of
the existing content; `threshold` is the `int64` product
`1000 * thresholdKB`, which wraps silently when the mathematical product
leaves the `int64` range. (`size` itself stays within `int64` through
real file writes — file offsets are `int64`-bounded — so its updates are
not wrapped.) -/
def mkRotator (content : List Nat) (thresholdKB : Int) : RotState :=
  { size := content.length
    threshold := wrap64 (1000 * thresholdKB)
    active := content
    retired := []
    rotations := 0
    seed := content.length
    reported := 0 }

/-- Every byte ever written across the retired segments (in rotation
order) and the active file. -/
def RotState.allBytes (o : RotState) : List Nat :=
  o.retired.flatten ++ o.active

/-- A full write: the OS reports the whole line and the whole newline
written. -/
def fullStep (l : List Nat) : Step := ⟨l, l.length, 1⟩

/-- The steps of a run in which every write completes fully. -/
def fullSteps (lines : List (List Nat)) : List Step :=
  lines.map fullStep

/-- Why a `bufio.Scanner` stopped producing lines: clean end of input, an
unrecoverable read error, or a line longer than the scanner's buffer
(`bufio.ErrTooLong`). `Scan` returns `false` in all three cases. -/
inductive StopReason where
  | eof
  | readErr
  | lineTooLong
deriving DecidableEq

/-- The input source of `Run`: the lines the scanner produced before
stopping, and why it stopped. The code could distinguish the reasons by
calling `r.in.Err()`, but never does. -/
structure Scanner where
  lines : List (List Nat)
  stop : StopReason

/-- The per-line write counts reported by the OS, indexed by line number. -/
def mkSteps (wr : Nat → Nat × Nat) (lines : List (List Nat)) : List Step :=
  lines.enum.map fun p => ⟨p.2, (wr p.1).1, (wr p.1).2⟩

/-- `Rotator.Run` (rotator.go:56-77): loop until `Scan` returns `false`,
then `return nil`; the only early exit is a `rotate` error. The scanner's
stop reason is never consulted. -/
def runModel (env : Env) (o : RotState) (wr : Nat → Nat × Nat) (sc : Scanner) :
    Except RotErr Unit :=
  match runSteps env o (mkSteps wr sc.lines) with
  | .ok _ => .ok ()
  | .error e => .error e

/-- The digit run of `strconv.Atoi`: every character must be a decimal
digit and there must be at least one. -/
def digitsToNat (cs : List Char) : Option Nat :=
  if cs.isEmpty then none
  else
    cs.foldl
      (fun acc c =>
        match acc with
        | none => none
        | some v => if c.isDigit then some (v * 10 + (c.toNat - 48)) else none)
      (some 0)

/-- `strconv.Atoi`: an optional sign followed by decimal digits, rejected
when empty, malformed, or out of the 64-bit signed range. -/
def atoi (cs : List Char) : Option Int :=
  match cs with
  | [] => none
  | c :: rest =>
    match digitsToNat (if c = '-' ∨ c = '+' then rest else c :: rest) with
    | none => none
    | some v =>
      let z : Int := if c = '-' then -(v : Int) else (v : Int)
      if z < -(2 ^ 63) ∨ 2 ^ 63 - 1 < z then none else some z

/-- `strings.Split(name, ".")`: the maximal `'.'`-free runs of the name,
one more part than there are dots. -/
def splitOnDot (cs : List Char) : List (List Char) :=
  match cs with
  | [] => [[]]
  | c :: rest =>
    if c = '.' then [] :: splitOnDot rest
    else
      match splitOnDot rest with
      | [] => [[c]]
      | p :: ps => (c :: p) :: ps

/-- One iteration of the `maxNum` loop (rotator.go:94-111): skip names
with fewer than two parts, aim at the last part unless it is `gz` (then
the one before it), skip names whose aimed part does not parse, and keep
the larger of the accumulator and the parsed number. -/
def scanName (acc : Int) (name : String) : Int :=
  if (splitOnDot name.data).length < 2 then acc
  else
    match atoi ((splitOnDot name.data).getD
        (if (splitOnDot name.data).getLastD [] = ['g', 'z']
          then (splitOnDot name.data).length - 2
          else (splitOnDot name.data).length - 1) []) with
    | none => acc
    | some num => if acc < num then num else acc

/-- `maxNum` over the glob matches, starting from 0 (rotator.go:93). -/
def maxNum (existing : List String) : Int :=
  existing.foldl scanName 0

/-- Whether `filepath.Glob` with pattern `base ++ ".*"` matches a name:
`*` matches any (possibly empty) run of non-separator characters, so a
separator-free name matches exactly when it extends `base ++ "."`. -/
def matchesGlob (base name : String) : Bool :=
  name.data.take (base ++ ".").data.length == (base ++ ".").data

/-- The glob matches among the directory's entries, as `rotate` sees
them. -/
def globMatches (base : String) (listing : List String) : List String :=
  listing.filter (matchesGlob base)

/-- The index `rotate` gives the new retired segment: it rescans the
directory and takes `maxNum + 1`. -/
def nextIndex (base : String) (listing : List String) : Int :=
  maxNum (globMatches base listing) + 1

/-- `fmt.Sprintf("%s.%d", r.filename, maxNum+1)` (rotator.go:118). -/
def rotnameOf (base : String) (listing : List String) : String :=
  base ++ "." ++ toString (nextIndex base listing)

/-- The parse of a single glob match, with `none` in exactly the cases
the `maxNum` loop skips. -/
def parseIndex (name : String) : Option Int :=
  if (splitOnDot name.data).length < 2 then none
  else
    atoi ((splitOnDot name.data).getD
      (if (splitOnDot name.data).getLastD [] = ['g', 'z']
        then (splitOnDot name.data).length - 2
        else (splitOnDot name.data).length - 1) [])

/-- Modelled from the claim's words, for comparison with the code's
`nextIndex`: "1 plus the maximum integer index parsed from existing
files matching the base filename's rotation/archive naming pattern,
defaulting to 0 when no match parses". -/
def claimedNextIndex (base : String) (listing : List String) : Int :=
  match (globMatches base listing).filterMap parseIndex with
  | [] => 1 + 0
  | v :: vs => 1 + vs.foldl max v

/-- A directory's contents: an association list from file names to byte
contents. -/
abbrev FS := List (String × List Nat)

/-- The content of the file called `name`, when it exists. -/
def FS.lookup : FS → String → Option (List Nat)
  | [], _ => none
  | e :: fs, name => if e.1 = name then some e.2 else FS.lookup fs name

/-- Delete the file called `name` (`os.Remove`, rename-away). -/
def FS.erase : FS → String → FS
  | [], _ => []
  | e :: fs, name => if e.1 = name then FS.erase fs name else e :: FS.erase fs name

/-- Create or replace the file called `name` with the given content. -/
def FS.set (fs : FS) (name : String) (content : List Nat) : FS :=
  FS.erase fs name ++ [(name, content)]

/-- `os.OpenFile(r.filename, os.O_CREATE|os.O_RDWR, 0644)` of
rotator.go:122: create the file empty when absent; when a file is
already present at the path, keep its bytes — the flag set has no
`O_TRUNC`, so nothing is truncated. -/
def openActive (fs : FS) (name : String) : FS :=
  match FS.lookup fs name with
  | some _ => fs
  | none => FS.set fs name []

/-- Modelled from the claim's words, for comparison with the code's
`openActive`: create-or-truncate semantics, after which the file at
`name` is empty whether or not it existed. -/
def openActiveClaimed (fs : FS) (name : String) : FS :=
  FS.set fs name []

/-- Oracle for the fallible filesystem calls of one `rotate`: injected
failures of the handle close, the rename and the create. -/
structure RotOrc where
  closeFail : Bool
  renameFail : Bool
  createFail : Bool

/-- `Rotator.rotate` (rotator.go:86-138) on the directory state: scan the
directory for glob matches and choose `rotname` from `maxNum + 1`, close
the handle, rename the base file to `rotname`, reopen the base filename
with `openActive`, reset the size (tracked in Part 1). The spawned
compression task is returned as the `rotname` to hand off, not run. Any
step's failure is returned as the error of the whole rotation. -/
def rotateFS (orc : RotOrc) (filename : String) (fs : FS) :
    Except RotErr (FS × String) :=
  if orc.closeFail then .error .closeErr
  else
    match FS.lookup fs filename with
    | none => .error .renameErr
    | some content =>
      if orc.renameFail then .error .renameErr
      else
        if orc.createFail then .error .createErr
        else .ok
          (openActive
            (FS.set (FS.erase fs filename)
              (filename ++ "." ++
                toString (maxNum (globMatches filename (fs.map Prod.fst)) + 1))
              content)
            filename,
          filename ++ "." ++
            toString (maxNum (globMatches filename (fs.map Prod.fst)) + 1))

/-- Oracle for the fallible steps of one background compression task:
injected I/O failures of the open, the exclusive create, the copy, the
gzip-writer close and the archive-handle close, plus the bytes the OS
had written to the archive when a copy or gzip-close failure aborts the
task mid-stream. -/
structure CompressOrc where
  openFail : Bool
  createFail : Bool
  copyFail : Bool
  zCloseFail : Bool
  arcCloseFail : Bool
  flushed : List Nat

/-- `compress` (rotator.go:140-160), parametric in the gzip encoding
`gz`: open the retired file (fails when it is absent or on an injected
error, touching nothing); create `name + ".gz"` with
`O_CREATE|O_EXCL|O_WRONLY` (fails when the archive already exists, or on
an injected error, touching nothing); stream the compressed bytes into
the archive — a copy or gzip-close failure abandons the partially
written archive on disk, a close failure of the archive handle leaves
the fully written archive. Returns the directory state and whether the
task succeeded. -/
def compressFS (gz : List Nat → List Nat) (orc : CompressOrc) (fs : FS) (name : String) :
    FS × Bool :=
  match FS.lookup fs name with
  | none => (fs, false)
  | some content =>
    if orc.openFail then (fs, false)
    else if (FS.lookup fs (name ++ ".gz")).isSome then (fs, false)
    else if orc.createFail then (fs, false)
    else if orc.copyFail ∨ orc.zCloseFail then
      (FS.set fs (name ++ ".gz") orc.flushed, false)
    else if orc.arcCloseFail then (FS.set fs (name ++ ".gz") (gz content), false)
    else (FS.set fs (name ++ ".gz") (gz content), true)

/-- The goroutine `rotate` spawns (rotator.go:128-135): run `compress`
and delete the retired file only on success; a failure is swallowed —
the only use of `err` is to skip the `os.Remove`. -/
def runTask (gz : List Nat → List Nat) (orc : CompressOrc) (fs : FS) (name : String) : FS :=
  match compressFS gz orc fs name with
  | (fs1, true) => FS.erase fs1 name
  | (fs1, false) => fs1

/-- `r.wg.Wait()` as shutdown observes it: every outstanding compression
task runs to completion in some serialization, each under its own
failure oracle. -/
def drainTasks (gz : List Nat → List Nat) : FS → List (String × CompressOrc) → FS
  | fs, [] => fs
  | fs, t :: ts => drainTasks gz (runTask gz t.2 fs t.1) ts

/-- `Rotator.Close` (rotator.go:80-84): close the active handle first,
recording its error, then block until the outstanding compression set
drains, then return the close error. -/
def closeModel (gz : List Nat → List Nat) (fs : FS)
    (tasks : List (String × CompressOrc)) (closeErr : Option RotErr) :
    FS × Option RotErr :=
  (drainTasks gz fs tasks, closeErr)

/-- The fate C6 asserts for a retired segment after shutdown: archived
(retired file gone, archive present) or left intact uncompressed. -/
def archivedOrIntact (fs : FS) (name : String) (c : List Nat) : Prop :=
  (FS.lookup fs name = none ∧ (FS.lookup fs (name ++ ".gz")).isSome = true) ∨
    FS.lookup fs name = some c

/-! ### Helper lemmas about the ingestion loop -/

theorem allBytes_rotateM (o : RotState) : (rotateM o).allBytes = o.allBytes := by
  simp [rotateM, RotState.allBytes]

theorem allBytes_writeLine_full (o : RotState) (l : List Nat) :
    (writeLine o (fullStep l)).allBytes = o.allBytes ++ (l ++ [newlineByte]) := by
  simp [writeLine, fullStep, RotState.allBytes]

/-- With a failure-free environment the loop consumes every line and
returns `nil`; the final state appends each line plus a newline to the
bytes ever written. -/
theorem runSteps_ok_allBytes (env : Env) (henv : ∀ k, env.rotErr k = none) :
    ∀ (lines : List (List Nat)) (o : RotState),
      ∃ o', runSteps env o (fullSteps lines) = .ok o' ∧
        o'.allBytes = o.allBytes ++ (lines.map (fun l => l ++ [newlineByte])).flatten := by
  intro lines
  induction lines with
  | nil => intro o; exact ⟨o, rfl, by simp [RotState.allBytes]⟩
  | cons l ls ih =>
    intro o
    by_cases h : o.threshold ≤ o.size
    · obtain ⟨o', h1, h2⟩ := ih (writeLine (rotateM o) (fullStep l))
      refine ⟨o', ?_, ?_⟩
      · simp only [fullSteps, List.map_cons, runSteps, if_pos h, henv o.rotations]
        exact h1
      · rw [h2, allBytes_writeLine_full, allBytes_rotateM]
        simp
    · obtain ⟨o', h1, h2⟩ := ih (writeLine o (fullStep l))
      refine ⟨o', ?_, ?_⟩
      · simp only [fullSteps, List.map_cons, runSteps, if_neg h]
        exact h1
      · rw [h2, allBytes_writeLine_full]
        simp

/-- An error returned by the loop always originates in a rotation: the
environment reported it for some rotation counter value. -/
theorem runSteps_error_source (env : Env) :
    ∀ (steps : List Step) (o : RotState) (e : RotErr),
      runSteps env o steps = .error e → ∃ k, env.rotErr k = some e := by
  intro steps
  induction steps with
  | nil => intro o e h; simp [runSteps] at h
  | cons s ss ih =>
    intro o e h
    by_cases hs : o.threshold ≤ o.size
    · rw [runSteps, if_pos hs] at h
      cases hrot : env.rotErr o.rotations with
      | some e' =>
        rw [hrot] at h
        simp only [Except.error.injEq] at h
        exact ⟨o.rotations, by rw [hrot, h]⟩
      | none =>
        rw [hrot] at h
        exact ih _ e h
    · rw [runSteps, if_neg hs] at h
      exact ih _ e h

/-- With a failure-free environment the loop never returns an error,
whatever the individual write counts were. -/
theorem runSteps_ok_of_noerr (env : Env) (henv : ∀ k, env.rotErr k = none) :
    ∀ (steps : List Step) (o : RotState), ∃ o', runSteps env o steps = .ok o' := by
  intro steps
  induction steps with
  | nil => intro o; exact ⟨o, rfl⟩
  | cons s ss ih =>
    intro o
    by_cases h : o.threshold ≤ o.size
    · obtain ⟨o', h1⟩ := ih (writeLine (rotateM o) s)
      exact ⟨o', by rw [runSteps, if_pos h, henv o.rotations]; exact h1⟩
    · obtain ⟨o', h1⟩ := ih (writeLine o s)
      exact ⟨o', by rw [runSteps, if_neg h]; exact h1⟩

/-- When the threshold is non-positive and the size counter non-negative,
every iteration rotates first: the run succeeds and produces one retired
segment per input line. -/
theorem runSteps_alwaysRotate (env : Env) (henv : ∀ k, env.rotErr k = none) :
    ∀ (steps : List Step) (o : RotState), o.threshold ≤ 0 → 0 ≤ o.size →
      ∃ o', runSteps env o steps = .ok o' ∧
        o'.retired.length = o.retired.length + steps.length := by
  intro steps
  induction steps with
  | nil => intro o _ _; exact ⟨o, rfl, by simp⟩
  | cons s ss ih =>
    intro o hth hsz
    have htr : o.threshold ≤ o.size := le_trans hth hsz
    obtain ⟨o', h1, h2⟩ := ih (writeLine (rotateM o) s) hth (by
      show (0 : Int) ≤ 0 + (s.n + s.m)
      positivity)
    refine ⟨o', by rw [runSteps, if_pos htr, henv o.rotations]; exact h1, ?_⟩
    rw [h2]
    show (o.retired ++ [o.active]).length + ss.length = o.retired.length + (ss.length + 1)
    simp [List.length_append]
    omega

/-- The size-accounting invariant `size = seed + reported` is preserved
by every successful run of the loop. -/
theorem runSteps_size_inv (env : Env) :
    ∀ (steps : List Step) (o o' : RotState), o.size = o.seed + o.reported →
      runSteps env o steps = .ok o' → o'.size = o'.seed + o'.reported := by
  intro steps
  induction steps with
  | nil => intro o o' hinv h; cases h; exact hinv
  | cons s ss ih =>
    intro o o' hinv h
    by_cases hs : o.threshold ≤ o.size
    · rw [runSteps, if_pos hs] at h
      cases hrot : env.rotErr o.rotations with
      | some e => rw [hrot] at h; exact absurd h (by simp)
      | none =>
        rw [hrot] at h
        refine ih _ o' ?_ h
        show (0 : Int) + (s.n + s.m) = 0 + (0 + (s.n + s.m))
        ring
    · rw [runSteps, if_neg hs] at h
      refine ih _ o' ?_ h
      show o.size + (s.n + s.m) = o.seed + (o.reported + (s.n + s.m))
      rw [hinv]; ring

/-- Values already inside the `int64` range are fixed by the wrap. -/
theorem wrap64_eq_self (z : Int) (h1 : -(2 ^ 63) ≤ z) (h2 : z < 2 ^ 63) :
    wrap64 z = z := by
  have e1 : ((2 : Int) ^ 63) = 9223372036854775808 := by norm_num
  have e2 : ((2 : Int) ^ 64) = 18446744073709551616 := by norm_num
  rw [e1] at h1 h2
  rw [wrap64, e1, e2, Int.emod_eq_of_lt (by omega) (by omega)]
  ring

/-! ### Helper lemmas about index discovery -/

theorem scanName_eq (acc : Int) (name : String) :
    scanName acc name =
      match parseIndex name with
      | none => acc
      | some v => max acc v := by
  rw [scanName, parseIndex]
  by_cases h : (splitOnDot name.data).length < 2
  · simp [h]
  · simp only [if_neg h]
    cases hax : atoi ((splitOnDot name.data).getD
        (if (splitOnDot name.data).getLastD [] = ['g', 'z']
          then (splitOnDot name.data).length - 2
          else (splitOnDot name.data).length - 1) []) with
    | none => simp
    | some v =>
      simp only []
      rcases le_or_lt v acc with hc | hc
      · rw [if_neg (not_lt.mpr hc), max_eq_left hc]
      · rw [if_pos hc, max_eq_right hc.le]

theorem foldl_scanName_eq (existing : List String) :
    ∀ init : Int,
      existing.foldl scanName init = (existing.filterMap parseIndex).foldl max init := by
  induction existing with
  | nil => intro init; rfl
  | cons n ns ih =>
    intro init
    rw [List.foldl_cons, scanName_eq, List.filterMap_cons]
    cases h : parseIndex n with
    | none => simpa [h] using ih init
    | some v => simpa [h] using ih (max init v)

theorem maxNum_eq_foldMax (existing : List String) :
    maxNum existing = (existing.filterMap parseIndex).foldl max 0 :=
  foldl_scanName_eq existing 0

/-! ### Helper lemmas about names and the directory model -/

theorem string_ext (a b : String) (h : a.data = b.data) : a = b := by
  cases a; cases b; exact congrArg String.mk h

theorem string_append_cancel (a b c : String) (h : a ++ c = b ++ c) : a = b := by
  apply string_ext
  have hd : a.data ++ c.data = b.data ++ c.data := by
    rw [← String.data_append, ← String.data_append, h]
  exact List.append_cancel_right hd

theorem append_dot_ne_self (base t : String) : base ++ "." ++ t ≠ base := by
  intro he
  have := congrArg String.length he
  rw [String.length_append, String.length_append] at this
  have hdot : ("." : String).length = 1 := rfl
  omega

theorem append_gz_ne_self (name : String) : name ++ ".gz" ≠ name := by
  intro he
  have := congrArg String.length he
  rw [String.length_append] at this
  have hgz : (".gz" : String).length = 3 := rfl
  omega

theorem FS.lookup_erase (fs : FS) (k n : String) :
    FS.lookup (FS.erase fs k) n = if n = k then none else FS.lookup fs n := by
  induction fs with
  | nil => simp [FS.lookup, FS.erase]
  | cons e fs ih =>
    by_cases hek : e.1 = k
    · rw [FS.erase, if_pos hek, ih]
      by_cases hnk : n = k
      · rw [if_pos hnk, if_pos hnk]
      · rw [if_neg hnk, if_neg hnk, FS.lookup, if_neg (fun h => hnk (by rw [← h, hek]))]
    · rw [FS.erase, if_neg hek, FS.lookup]
      by_cases hen : e.1 = n
      · have hnk : n ≠ k := fun h => hek (by rw [hen, h])
        rw [if_pos hen, if_neg hnk, FS.lookup, if_pos hen]
      · rw [if_neg hen, ih]
        by_cases hnk : n = k
        · rw [if_pos hnk, if_pos hnk]
        · rw [if_neg hnk, if_neg hnk, FS.lookup, if_neg hen]

theorem FS.lookup_append (a b : FS) (n : String) :
    FS.lookup (a ++ b) n =
      match FS.lookup a n with
      | some v => some v
      | none => FS.lookup b n := by
  induction a with
  | nil => simp [FS.lookup]
  | cons e a ih =>
    rw [List.cons_append, FS.lookup, FS.lookup]
    by_cases hen : e.1 = n
    · rw [if_pos hen, if_pos hen]
    · rw [if_neg hen, if_neg hen, ih]

theorem FS.lookup_set (fs : FS) (k n : String) (c : List Nat) :
    FS.lookup (FS.set fs k c) n = if n = k then some c else FS.lookup fs n := by
  rw [FS.set, FS.lookup_append, FS.lookup_erase]
  by_cases hnk : n = k
  · rw [if_pos hnk, if_pos hnk]
    show FS.lookup [(k, c)] n = some c
    rw [FS.lookup, if_pos hnk.symm]
  · rw [if_neg hnk, if_neg hnk]
    cases h : FS.lookup fs n with
    | some v => rfl
    | none =>
      show FS.lookup [(k, c)] n = none
      rw [FS.lookup, if_neg (fun hh => hnk hh.symm), FS.lookup]

/-! ### Claim theorems about the ingestion loop -/

/-- C1: for every finite sequence of input lines consumed by a run in
which the filesystem reports no failures, the bytes ever written across
the retired segments (in rotation order) and the active file equal the
initial bytes followed by every input line with a single trailing
newline — no line is dropped or duplicated, wherever rotations fall. -/
theorem C1_run_writes_every_line (env : Env) (o : RotState) (lines : List (List Nat))
    (henv : ∀ k, env.rotErr k = none) :
    ∃ o', runSteps env o (fullSteps lines) = .ok o' ∧
      o'.allBytes = o.allBytes ++ (lines.map (fun l => l ++ [newlineByte])).flatten :=
  runSteps_ok_allBytes env henv lines o

theorem C1_witness :
    ∃ o', runSteps ⟨fun _ => none⟩ (mkRotator [] 0) (fullSteps [[65], [66, 66]]) = .ok o' ∧
      o'.allBytes = [65, 10, 66, 66, 10] := by
  obtain ⟨o', h1, h2⟩ :=
    C1_run_writes_every_line ⟨fun _ => none⟩ (mkRotator [] 0) [[65], [66, 66]] (fun _ => rfl)
  exact ⟨o', h1, by rw [h2]; decide⟩

/-- C2: before writing a line, rotation is invoked iff the size counter
has reached the threshold. When it triggers and succeeds, the old active
content is retired and the line's bytes land in the fresh active file
(whose content afterwards is exactly this line's written bytes); when it
does not trigger, nothing is retired and the bytes append to the old
file; when the triggering rotation fails, the error terminates the loop. -/
theorem C2_rotation_trigger (env : Env) (o : RotState) (s : Step) (ss : List Step) :
    (o.threshold ≤ o.size → env.rotErr o.rotations = none →
      ∃ o1, runSteps env o (s :: ss) = runSteps env o1 ss ∧
        o1.retired = o.retired ++ [o.active] ∧
        o1.active = s.line.take s.n ++ List.take s.m [newlineByte]) ∧
    (o.size < o.threshold →
      ∃ o1, runSteps env o (s :: ss) = runSteps env o1 ss ∧
        o1.retired = o.retired ∧
        o1.active = o.active ++ s.line.take s.n ++ List.take s.m [newlineByte]) ∧
    (o.threshold ≤ o.size → ∀ e, env.rotErr o.rotations = some e →
      runSteps env o (s :: ss) = .error e) := by
  refine ⟨fun h hrot => ?_, fun h => ?_, fun h e hrot => ?_⟩
  · refine ⟨writeLine (rotateM o) s, ?_, ?_, ?_⟩
    · rw [runSteps, if_pos h, hrot]
    · simp [writeLine, rotateM]
    · simp [writeLine, rotateM]
  · refine ⟨writeLine o s, ?_, rfl, ?_⟩
    · rw [runSteps, if_neg (not_le.mpr h)]
    · simp [writeLine]
  · rw [runSteps, if_pos h, hrot]

theorem C2_witness :
    (∃ o1, runSteps ⟨fun _ => none⟩ (mkRotator [65] 0) [fullStep [66]] =
        runSteps ⟨fun _ => none⟩ o1 [] ∧
      o1.retired = [[65]] ∧ o1.active = [66, 10]) ∧
    (∃ o1, runSteps ⟨fun _ => none⟩ (mkRotator [65] 1) [fullStep [66]] =
        runSteps ⟨fun _ => none⟩ o1 [] ∧
      o1.retired = [] ∧ o1.active = [65, 66, 10]) ∧
    runSteps ⟨fun _ => some RotErr.renameErr⟩ (mkRotator [65] 0) [fullStep [66]] =
      .error RotErr.renameErr := by
  refine ⟨?_, ?_, ?_⟩
  · obtain ⟨o1, h1, h2, h3⟩ :=
      (C2_rotation_trigger ⟨fun _ => none⟩ (mkRotator [65] 0) (fullStep [66]) []).1
        (by decide) rfl
    exact ⟨o1, h1, by simpa [mkRotator] using h2, by simpa [fullStep] using h3⟩
  · obtain ⟨o1, h1, h2, h3⟩ :=
      (C2_rotation_trigger ⟨fun _ => none⟩ (mkRotator [65] 1) (fullStep [66]) []).2.1
        (by decide)
    exact ⟨o1, h1, by simpa [mkRotator] using h2, by simpa [fullStep, mkRotator] using h3⟩
  · exact (C2_rotation_trigger ⟨fun _ => some RotErr.renameErr⟩ (mkRotator [65] 0)
      (fullStep [66]) []).2.2 (by decide) RotErr.renameErr rfl

/-- C8: the size counter is seeded from the existing file's length at
construction, each iteration adds exactly the byte counts the two writes
reported, rotation resets it to 0 exactly when the handle is replaced,
and consequently `size = seed + reported` (bytes in the file when the
current handle was created, plus reported bytes written through it since)
holds throughout every successful run. -/
theorem C8_size_accounting (content : List Nat) (kb : Int) (env : Env)
    (steps : List Step) (o o' : RotState) (s : Step) :
    ((mkRotator content kb).size = content.length ∧
      (mkRotator content kb).seed = content.length ∧
      (mkRotator content kb).reported = 0) ∧
    ((rotateM o).size = 0 ∧ (rotateM o).seed = 0 ∧ (rotateM o).reported = 0) ∧
    ((writeLine o s).size = o.size + (s.n + s.m) ∧
      (writeLine o s).reported = o.reported + (s.n + s.m)) ∧
    (o.size = o.seed + o.reported → runSteps env o steps = .ok o' →
      o'.size = o'.seed + o'.reported) :=
  ⟨⟨rfl, rfl, rfl⟩, ⟨rfl, rfl, rfl⟩, ⟨rfl, rfl⟩,
    fun hinv h => runSteps_size_inv env steps o o' hinv h⟩

theorem C8_witness :
    ∃ o', runSteps ⟨fun _ => none⟩ (mkRotator [65, 66] 1) (fullSteps [[67]]) = .ok o' ∧
      o'.size = o'.seed + o'.reported := by
  refine ⟨writeLine (mkRotator [65, 66] 1) (fullStep [67]), ?_, ?_⟩
  · show runSteps _ _ [fullStep [67]] = _
    rw [runSteps, if_neg (by decide)]
    rfl
  · exact (C8_size_accounting [65, 66] 1 ⟨fun _ => none⟩ (fullSteps [[67]])
      (mkRotator [65, 66] 1) (writeLine (mkRotator [65, 66] 1) (fullStep [67]))
      (fullStep [67])).2.2.2 (by decide)
      (by rw [show fullSteps [[67]] = [fullStep [67]] from rfl, runSteps,
            if_neg (by decide)]; rfl)

/-- C9: `Run` returns `nil` whenever the scanner stops, whatever the stop
reason was — a read error or over-long line is indistinguishable from a
clean end of input at `Run`'s interface — and the only non-nil error it
can return is one produced by a rotation. -/
theorem C9_run_result_ignores_stop (env : Env) (o : RotState) (wr : Nat → Nat × Nat)
    (lines : List (List Nat)) (r1 r2 : StopReason) :
    runModel env o wr ⟨lines, r1⟩ = runModel env o wr ⟨lines, r2⟩ ∧
    ((∀ k, env.rotErr k = none) → runModel env o wr ⟨lines, r1⟩ = .ok ()) ∧
    (∀ e, runModel env o wr ⟨lines, r1⟩ = .error e → ∃ k, env.rotErr k = some e) := by
  refine ⟨rfl, fun henv => ?_, fun e h => ?_⟩
  · obtain ⟨o', h1⟩ := runSteps_ok_of_noerr env henv (mkSteps wr lines) o
    rw [runModel]
    rw [h1]
  · rw [runModel] at h
    cases hrun : runSteps env o (mkSteps wr lines) with
    | ok o' => rw [hrun] at h; exact absurd h (by simp)
    | error e' =>
      rw [hrun] at h
      simp only [Except.error.injEq] at h
      exact runSteps_error_source env (mkSteps wr lines) o e (h ▸ hrun)

theorem C9_witness :
    runModel ⟨fun _ => none⟩ (mkRotator [] 1) (fun _ => (1, 1)) ⟨[[65]], .readErr⟩ =
      runModel ⟨fun _ => none⟩ (mkRotator [] 1) (fun _ => (1, 1)) ⟨[[65]], .eof⟩ ∧
    runModel ⟨fun _ => none⟩ (mkRotator [] 1) (fun _ => (1, 1)) ⟨[[65]], .readErr⟩ =
      .ok () := by
  have h := C9_run_result_ignores_stop ⟨fun _ => none⟩ (mkRotator [] 1) (fun _ => (1, 1))
    [[65]] .readErr .eof
  exact ⟨h.1, h.2.1 (fun _ => rfl)⟩

/-- C10 fails as stated: `New` computes `1000 * thresholdKB` in `int64`,
which wraps silently. At `thresholdKB = -2^54` the stored threshold is
the positive 432345564227567616, not `1000 * (-2^54)`, and the first
input line is written without any rotation — so a negative configured
value does not always rotate before every line, and the byte threshold
is not always exactly 1000 times the configured value. -/
theorem C10_counterexample :
    (mkRotator [] (-(2 ^ 54))).threshold = 432345564227567616 ∧
    (mkRotator [] (-(2 ^ 54))).threshold ≠ 1000 * (-(2 ^ 54)) ∧
    ∃ o', runSteps ⟨fun _ => none⟩ (mkRotator [] (-(2 ^ 54))) (fullSteps [[65]]) = .ok o' ∧
      o'.retired = [] := by
  refine ⟨by decide, by decide, ?_⟩
  refine ⟨writeLine (mkRotator [] (-(2 ^ 54))) (fullStep [65]), ?_, rfl⟩
  show runSteps _ _ [fullStep [65]] = _
  rw [runSteps, if_neg (by decide)]
  rfl

/-- C10 (amended): the byte threshold is `1000 * thresholdKB` computed
in wrapping `int64` arithmetic (decimal kilobytes), hence exactly
`1000 * thresholdKB` whenever that product lies inside the `int64`
range; a configured value of 0, or a negative value whose product does
not underflow `int64`, stores a non-positive threshold and so makes the
rotation condition hold before every line of a failure-free run: each
input line produces one freshly rotated segment. -/
theorem C10_threshold_decimal_kb (content : List Nat) (kb : Int) (env : Env)
    (steps : List Step) (o : RotState) :
    (mkRotator content kb).threshold = wrap64 (1000 * kb) ∧
    (-(2 ^ 63) ≤ 1000 * kb → 1000 * kb ≤ 2 ^ 63 - 1 →
      (mkRotator content kb).threshold = 1000 * kb) ∧
    (kb ≤ 0 → -(2 ^ 63) ≤ 1000 * kb → (mkRotator content kb).threshold ≤ 0) ∧
    (o.threshold ≤ 0 → 0 ≤ o.size → (∀ k, env.rotErr k = none) →
      ∃ o', runSteps env o steps = .ok o' ∧
        o'.retired.length = o.retired.length + steps.length) ∧
    (kb ≤ 0 → -(2 ^ 63) ≤ 1000 * kb → (∀ k, env.rotErr k = none) →
      ∃ o', runSteps env (mkRotator content kb) steps = .ok o' ∧
        o'.retired.length = steps.length) := by
  have hself : -(2 ^ 63) ≤ 1000 * kb → 1000 * kb ≤ 2 ^ 63 - 1 →
      (mkRotator content kb).threshold = 1000 * kb := by
    intro h1 h2
    show wrap64 (1000 * kb) = 1000 * kb
    exact wrap64_eq_self (1000 * kb) h1 (by omega)
  have hnonpos : kb ≤ 0 → -(2 ^ 63) ≤ 1000 * kb →
      (mkRotator content kb).threshold ≤ 0 := by
    intro hkb h1
    have hprod : 1000 * kb ≤ 0 := by
      have : (0 : Int) < 1000 := by norm_num
      exact mul_nonpos_iff.mpr (Or.inl ⟨this.le, hkb⟩)
    rw [hself h1 (le_trans hprod (by norm_num))]
    exact hprod
  refine ⟨rfl, hself, hnonpos, ?_, ?_⟩
  · exact fun hth hsz henv => runSteps_alwaysRotate env henv steps o hth hsz
  · intro hkb h1 henv
    obtain ⟨o', ho1, ho2⟩ := runSteps_alwaysRotate env henv steps (mkRotator content kb)
      (hnonpos hkb h1) (Int.ofNat_nonneg content.length)
    refine ⟨o', ho1, ?_⟩
    rw [ho2]
    show ([] : List (List Nat)).length + steps.length = steps.length
    simp

theorem C10_witness :
    (mkRotator [] (-2)).threshold = 1000 * (-2) ∧
    ∃ o', runSteps ⟨fun _ => none⟩ (mkRotator [] (-2)) (fullSteps [[65], [66]]) = .ok o' ∧
      o'.retired.length = 2 := by
  have h := C10_threshold_decimal_kb [] (-2) ⟨fun _ => none⟩ (fullSteps [[65], [66]])
    (mkRotator [] (-2))
  refine ⟨h.2.1 (by decide) (by decide), ?_⟩
  exact h.2.2.2.2 (by decide) (by decide) (fun _ => rfl)

/-! ### Claim theorems about index discovery and rotation -/

/-- C3 fails as stated at an artifact with a negative parsed index: the
loop's accumulator starts at 0 and only ever moves up, so `P.-5` yields
next index 1, while "1 plus the maximum integer index parsed" would
yield -4. -/
theorem C3_counterexample :
    nextIndex "P" ["P.-5"] = 1 ∧ claimedNextIndex "P" ["P.-5"] = -4 ∧
    nextIndex "P" ["P.-5"] ≠ claimedNextIndex "P" ["P.-5"] := by decide

/-- C3 (amended): the index chosen for the new retired segment is 1 plus
the maximum of 0 and every integer index parsed from the glob matches
(trailing `.gz` stripped before parsing); `rotate` rescans the directory
and names the segment accordingly; non-numeric or malformed matches are
skipped; gaps are tolerated ({1,2,4} yields 5, not 3); with no parsing
match the index defaults to 0 + 1 = 1. -/
theorem C3_next_index (base : String) (listing : List String) (orc : RotOrc)
    (filename : String) (fs fs' : FS) (rotn : String) :
    nextIndex base listing =
      1 + ((globMatches base listing).filterMap parseIndex).foldl max 0 ∧
    (rotateFS orc filename fs = .ok (fs', rotn) →
      rotn = filename ++ "." ++ toString (nextIndex filename (fs.map Prod.fst))) ∧
    nextIndex "P" ["P.1", "P.2.gz", "P.4"] = 5 ∧
    nextIndex "P" ["P.1", "P.abc", "P..gz", "P.2"] = 3 ∧
    nextIndex "P" ["Q.7"] = 1 := by
  refine ⟨?_, ?_, by decide, by decide, by decide⟩
  · rw [nextIndex, maxNum_eq_foldMax, add_comm]
  · intro h
    rw [rotateFS] at h
    split at h
    · exact absurd h (by simp)
    · split at h
      · exact absurd h (by simp)
      · split at h
        · exact absurd h (by simp)
        · split at h
          · exact absurd h (by simp)
          · simp only [Except.ok.injEq, Prod.mk.injEq] at h
            rw [← h.2, nextIndex]

theorem C3_witness :
    "P.2" = "P" ++ "." ++ toString (nextIndex "P" ["P", "P.1"]) :=
  (C3_next_index "P" [] ⟨false, false, false⟩ "P" [("P", [1]), ("P.1", [2])]
    [("P.1", [2]), ("P.2", [1]), ("P", [])] "P.2").2.1 rfl

/-- C7 fails as stated: the creation of the new active file uses
`O_CREATE|O_RDWR` with no `O_TRUNC`, so an existing file at the path is
not truncated to empty — its bytes survive the open — while the claimed
create-or-truncate semantics would leave it empty. -/
theorem C7_counterexample :
    FS.lookup (openActive [("P", [7])] "P") "P" = some [7] ∧
    FS.lookup (openActiveClaimed [("P", [7])] "P") "P" = some [] ∧
    openActive [("P", [7])] "P" ≠ openActiveClaimed [("P", [7])] "P" := by decide

/-- C7 (amended): in step 4 of rotation, after the old active file has
been renamed away, the new active file is created at the base filename
with create-if-absent read-write semantics and no truncation (a file
already at the path would keep its contents); since the rename just
removed the base filename, the new active file is empty after a
successful rotation; a creation failure is propagated as a fatal error
to the caller. -/
theorem C7_new_active_file (orc : RotOrc) (filename : String) (fs fs' : FS)
    (rotn : String) (c : List Nat) :
    (FS.lookup fs filename = none → openActive fs filename = FS.set fs filename []) ∧
    (FS.lookup fs filename = some c → openActive fs filename = fs) ∧
    (rotateFS orc filename fs = .ok (fs', rotn) → FS.lookup fs' filename = some []) ∧
    (FS.lookup fs filename = some c → orc.closeFail = false → orc.renameFail = false →
      orc.createFail = true → rotateFS orc filename fs = .error .createErr) := by
  refine ⟨fun h => ?_, fun h => ?_, fun h => ?_, fun h hc hr hcr => ?_⟩
  · rw [openActive, h]
  · rw [openActive, h]
  · rw [rotateFS] at h
    split at h
    · exact absurd h (by simp)
    · split at h
      · exact absurd h (by simp)
      · split at h
        · exact absurd h (by simp)
        · split at h
          · exact absurd h (by simp)
          · simp only [Except.ok.injEq, Prod.mk.injEq] at h
            rw [← h.1, openActive, FS.lookup_set,
              if_neg (fun hh => append_dot_ne_self filename _ hh.symm),
              FS.lookup_erase, if_pos rfl, FS.lookup_set, if_pos rfl]
  · simp [rotateFS, hc, hr, hcr, h]

theorem C7_witness :
    openActive ([] : FS) "P" = FS.set [] "P" [] ∧
    FS.lookup [("P.1", [2]), ("P.2", [1]), ("P", [])] "P" = some [] ∧
    rotateFS ⟨false, false, true⟩ "P" [("P", [9])] = .error .createErr := by
  refine ⟨?_, ?_, ?_⟩
  · exact (C7_new_active_file ⟨false, false, false⟩ "P" [] [] "x" []).1 rfl
  · exact (C7_new_active_file ⟨false, false, false⟩ "P" [("P", [1]), ("P.1", [2])]
      [("P.1", [2]), ("P.2", [1]), ("P", [])] "P.2" []).2.2.1 rfl
  · exact (C7_new_active_file ⟨false, false, true⟩ "P" [("P", [9])] [] "x" [9]).2.2.2
      rfl rfl rfl rfl

/-! ### Helper lemmas about compression tasks -/

/-- A compression task never touches any file other than `name + ".gz"`
before the remove decision: whatever branch it takes, the directory it
returns agrees with the input on every other name. -/
theorem compressFS_fst_lookup (gz : List Nat → List Nat) (orc : CompressOrc)
    (fs : FS) (name n : String) (hn : n ≠ name ++ ".gz") :
    FS.lookup (compressFS gz orc fs name).1 n = FS.lookup fs n := by
  rw [compressFS]
  split
  · rfl
  · split
    · rfl
    · split
      · rfl
      · split
        · rfl
        · split
          · simp [FS.lookup_set, hn]
          · split
            · simp [FS.lookup_set, hn]
            · simp [FS.lookup_set, hn]

/-- A compression task that fails at the open or at the exclusive create
(including an archive-already-exists collision) returns the directory
untouched and reports failure. -/
theorem compressFS_aborts (gz : List Nat → List Nat) (orc : CompressOrc)
    (fs : FS) (name : String)
    (h : orc.openFail = true ∨ orc.createFail = true ∨
      (FS.lookup fs (name ++ ".gz")).isSome = true) :
    compressFS gz orc fs name = (fs, false) := by
  rw [compressFS]
  split
  · rfl
  · rcases h with h | h | h
    · rw [if_pos h]
    · by_cases h1 : orc.openFail = true
      · rw [if_pos h1]
      · rw [if_neg h1]
        by_cases h2 : (FS.lookup fs (name ++ ".gz")).isSome = true
        · rw [if_pos h2]
        · rw [if_neg h2, if_pos h]
    · by_cases h1 : orc.openFail = true
      · rw [if_pos h1]
      · rw [if_neg h1, if_pos h]

/-- A successful compression task has written the archive. -/
theorem compressFS_success_archive (gz : List Nat → List Nat) (orc : CompressOrc)
    (fs : FS) (name : String) (fs1 : FS)
    (heq : compressFS gz orc fs name = (fs1, true)) :
    (FS.lookup fs1 (name ++ ".gz")).isSome = true := by
  rw [compressFS] at heq
  split at heq
  · exact absurd heq (by simp)
  · split at heq
    · exact absurd heq (by simp)
    · split at heq
      · exact absurd heq (by simp)
      · split at heq
        · exact absurd heq (by simp)
        · split at heq
          · exact absurd heq (by simp)
          · split at heq
            · exact absurd heq (by simp)
            · have h1 := congrArg Prod.fst heq
              simp only [] at h1
              rw [← h1, FS.lookup_set, if_pos rfl]
              rfl

/-- The whole task (compression plus success-only remove) leaves every
file other than its retired segment `m` and its archive `m + ".gz"`
untouched. -/
theorem runTask_lookup_other (gz : List Nat → List Nat) (orc : CompressOrc)
    (fs : FS) (m n : String) (h1 : n ≠ m) (h2 : n ≠ m ++ ".gz") :
    FS.lookup (runTask gz orc fs m) n = FS.lookup fs n := by
  rw [runTask]
  split
  · next fs1 heq =>
    rw [FS.lookup_erase, if_neg h1]
    have hl := compressFS_fst_lookup gz orc fs m n h2
    rw [heq] at hl
    exact hl
  · next fs1 heq =>
    have hl := compressFS_fst_lookup gz orc fs m n h2
    rw [heq] at hl
    exact hl

/-- Running the task of a retired segment leaves it archived (on
success) or intact with its content (on failure). -/
theorem runTask_establishes_fate (gz : List Nat → List Nat) (orc : CompressOrc)
    (fs : FS) (name : String) (c : List Nat) (hc : FS.lookup fs name = some c) :
    archivedOrIntact (runTask gz orc fs name) name c := by
  rw [runTask]
  split
  · next fs1 heq =>
    left
    constructor
    · rw [FS.lookup_erase, if_pos rfl]
    · rw [FS.lookup_erase, if_neg (append_gz_ne_self name)]
      exact compressFS_success_archive gz orc fs name fs1 heq
  · next fs1 heq =>
    right
    have hl := compressFS_fst_lookup gz orc fs name name (Ne.symm (append_gz_ne_self name))
    rw [heq] at hl
    exact hl.trans hc

/-- A task over a different segment preserves a segment's fate. -/
theorem runTask_preserves_fate (gz : List Nat → List Nat) (orc : CompressOrc)
    (fs : FS) (m name : String) (c : List Nat) (h1 : m ≠ name)
    (h2 : m ++ ".gz" ≠ name) (h3 : m ≠ name ++ ".gz")
    (hP : archivedOrIntact fs name c) :
    archivedOrIntact (runTask gz orc fs m) name c := by
  have hl : FS.lookup (runTask gz orc fs m) name = FS.lookup fs name :=
    runTask_lookup_other gz orc fs m name (fun h => h1 h.symm) (fun h => h2 h.symm)
  rcases hP with ⟨ha, hb⟩ | hP
  · left
    refine ⟨by rw [hl, ha], ?_⟩
    have hlg : FS.lookup (runTask gz orc fs m) (name ++ ".gz") =
        FS.lookup fs (name ++ ".gz") :=
      runTask_lookup_other gz orc fs m (name ++ ".gz") (fun h => h3 h.symm)
        (fun h => h1 (string_append_cancel name m ".gz" h).symm)
    rw [hlg]
    exact hb
  · right
    rw [hl]
    exact hP

theorem drainTasks_preserves_fate (gz : List Nat → List Nat) (name : String)
    (c : List Nat) :
    ∀ (ts : List (String × CompressOrc)) (fs : FS),
      (∀ t ∈ ts, t.1 ≠ name ∧ t.1 ++ ".gz" ≠ name ∧ t.1 ≠ name ++ ".gz") →
      archivedOrIntact fs name c → archivedOrIntact (drainTasks gz fs ts) name c := by
  intro ts
  induction ts with
  | nil => intro fs _ hP; exact hP
  | cons t ts ih =>
    intro fs hcond hP
    rw [drainTasks]
    refine ih _ (fun u hu => hcond u (List.mem_cons_of_mem t hu)) ?_
    obtain ⟨h1, h2, h3⟩ := hcond t (List.mem_cons_self t ts)
    exact runTask_preserves_fate gz t.2 fs t.1 name c h1 h2 h3 hP

/-- Draining the outstanding set settles the fate of every segment that
has an outstanding task, provided no two outstanding tasks cover the
same segment and no task's segment or archive name aliases another's
(always true of the `base.n` names rotation produces). -/
theorem drainTasks_fate (gz : List Nat → List Nat) (name : String) (c : List Nat) :
    ∀ (ts : List (String × CompressOrc)) (fs : FS),
      name ∈ ts.map Prod.fst →
      FS.lookup fs name = some c →
      (ts.map Prod.fst).Nodup →
      (∀ t ∈ ts, t.1 ++ ".gz" ≠ name) →
      (∀ t ∈ ts, t.1 ≠ name ++ ".gz") →
      archivedOrIntact (drainTasks gz fs ts) name c := by
  intro ts
  induction ts with
  | nil => intro fs hmem; simp at hmem
  | cons t ts ih =>
    intro fs hmem hc hnodup hgz1 hgz2
    rw [drainTasks]
    rw [List.map_cons] at hnodup
    by_cases ht : t.1 = name
    · have hP : archivedOrIntact (runTask gz t.2 fs t.1) name c := by
        rw [ht]
        exact runTask_establishes_fate gz t.2 fs name c hc
      refine drainTasks_preserves_fate gz name c ts _ ?_ hP
      intro u hu
      refine ⟨?_, hgz1 u (List.mem_cons_of_mem t hu), hgz2 u (List.mem_cons_of_mem t hu)⟩
      intro hun
      have hhead : t.1 ∉ ts.map Prod.fst := (List.nodup_cons.mp hnodup).1
      apply hhead
      rw [ht, ← hun]
      exact List.mem_map_of_mem Prod.fst hu
    · have hmemts : name ∈ ts.map Prod.fst := by
        rw [List.map_cons] at hmem
        cases List.mem_cons.mp hmem with
        | inl h => exact absurd h.symm ht
        | inr h => exact h
      have hl : FS.lookup (runTask gz t.2 fs t.1) name = FS.lookup fs name :=
        runTask_lookup_other gz t.2 fs t.1 name (fun h => ht h.symm)
          (fun h => hgz1 t (List.mem_cons_self t ts) h.symm)
      exact ih (runTask gz t.2 fs t.1) hmemts (by rw [hl]; exact hc)
        (List.nodup_cons.mp hnodup).2
        (fun u hu => hgz1 u (List.mem_cons_of_mem t hu))
        (fun u hu => hgz2 u (List.mem_cons_of_mem t hu))

/-! ### Claim theorems about compression and shutdown -/

/-- C4 fails as stated for failures during the compression or close
steps: `compress` creates the archive with `O_CREATE|O_EXCL` before
copying, so a mid-copy failure reports failure yet leaves a (partially
written) `P.3.gz` on disk — "no archive P.n.gz is created" does not hold
for that failure step. -/
theorem C4_counterexample :
    (compressFS id ⟨false, false, true, false, false, [9]⟩
      [("P.3", [1, 2])] "P.3").2 = false ∧
    (FS.lookup (runTask id ⟨false, false, true, false, false, [9]⟩
      [("P.3", [1, 2])] "P.3") ("P.3" ++ ".gz")).isSome = true := by decide

/-- C4 (amended): when a background compression task fails at any step,
the retired file keeps its content and is not deleted — deletion happens
exactly on success; a failure at the open or the exclusive create leaves
the directory untouched (no archive is created there), while a failure
during the copy or the closes can leave a partially written archive
behind; the task propagates nothing to the foreground (`runTask` returns
only a directory, never an error), and a subsequent rotation still
numbers past the failed segment (index 4 after a failed compression of
`P.3`). -/
theorem C4_compress_failure_contained (gz : List Nat → List Nat) (orc : CompressOrc)
    (fs : FS) (name : String) (c : List Nat) :
    (FS.lookup fs name = some c → (compressFS gz orc fs name).2 = false →
      FS.lookup (runTask gz orc fs name) name = some c) ∧
    ((compressFS gz orc fs name).2 = true →
      FS.lookup (runTask gz orc fs name) name = none) ∧
    (orc.openFail = true ∨ orc.createFail = true ∨
        (FS.lookup fs (name ++ ".gz")).isSome = true →
      runTask gz orc fs name = fs) ∧
    nextIndex "P" ((runTask id ⟨false, false, true, false, false, [9]⟩
        [("P", []), ("P.3", [1, 2])] "P.3").map Prod.fst) = 4 := by
  refine ⟨fun hc hfail => ?_, fun hsucc => ?_, fun habort => ?_, by decide⟩
  · rw [runTask]
    split
    · next fs1 heq =>
      rw [heq] at hfail
      exact absurd hfail (by simp)
    · next fs1 heq =>
      have hl := compressFS_fst_lookup gz orc fs name name (Ne.symm (append_gz_ne_self name))
      rw [heq] at hl
      exact hl.trans hc
  · rw [runTask]
    split
    · next fs1 heq =>
      rw [FS.lookup_erase, if_pos rfl]
    · next fs1 heq =>
      rw [heq] at hsucc
      exact absurd hsucc (by simp)
  · rw [runTask, compressFS_aborts gz orc fs name habort]

theorem C4_witness :
    FS.lookup (runTask id ⟨false, false, true, false, false, [9]⟩
      [("P.3", [1, 2])] "P.3") "P.3" = some [1, 2] ∧
    runTask id ⟨true, false, false, false, false, []⟩
      [("P.3", [1, 2])] "P.3" = [("P.3", [1, 2])] ∧
    FS.lookup (runTask id ⟨false, false, false, false, false, []⟩
      [("P.3", [1, 2])] "P.3") "P.3" = none := by
  refine ⟨?_, ?_, ?_⟩
  · exact (C4_compress_failure_contained id ⟨false, false, true, false, false, [9]⟩
      [("P.3", [1, 2])] "P.3" [1, 2]).1 (by decide) (by decide)
  · exact (C4_compress_failure_contained id ⟨true, false, false, false, false, []⟩
      [("P.3", [1, 2])] "P.3" [1, 2]).2.2.1 (Or.inl rfl)
  · exact (C4_compress_failure_contained id ⟨false, false, false, false, false, []⟩
      [("P.3", [1, 2])] "P.3" [1, 2]).2.1 (by decide)

/-- C5: the archive is created with `O_CREATE|O_EXCL|O_WRONLY`, so when
an archive of the same index already exists, the compression task fails
without touching the directory: the existing archive's contents are
unchanged, the retired file stays, and the failure stays contained in
the task. -/
theorem C5_no_archive_overwrite (gz : List Nat → List Nat) (orc : CompressOrc)
    (fs : FS) (name : String) (a : List Nat)
    (ha : FS.lookup fs (name ++ ".gz") = some a) :
    compressFS gz orc fs name = (fs, false) ∧
    runTask gz orc fs name = fs ∧
    FS.lookup (runTask gz orc fs name) (name ++ ".gz") = some a := by
  have h1 : compressFS gz orc fs name = (fs, false) :=
    compressFS_aborts gz orc fs name (Or.inr (Or.inr (by rw [ha]; rfl)))
  refine ⟨h1, ?_, ?_⟩
  · rw [runTask, h1]
  · rw [runTask, h1]
    exact ha

theorem C5_witness :
    compressFS id ⟨false, false, false, false, false, []⟩
      [("P.1", [5]), ("P.1.gz", [7])] "P.1" = ([("P.1", [5]), ("P.1.gz", [7])], false) ∧
    FS.lookup (runTask id ⟨false, false, false, false, false, []⟩
      [("P.1", [5]), ("P.1.gz", [7])] "P.1") ("P.1" ++ ".gz") = some [7] := by
  have h := C5_no_archive_overwrite id ⟨false, false, false, false, false, []⟩
    [("P.1", [5]), ("P.1.gz", [7])] "P.1" [7] (by decide)
  exact ⟨h.1, h.2.2⟩

/-- C6: `Close` closes the active handle first, then blocks until every
outstanding compression task has run to completion (success or failure),
then returns the close error of the handle — unconditionally, whatever
the tasks did; afterwards each retired segment with an outstanding task
is either archived (retired file absent, archive present) or left intact
uncompressed with its content. -/
theorem C6_close_drains (gz : List Nat → List Nat) (fs : FS)
    (tasks : List (String × CompressOrc)) (closeErr : Option RotErr)
    (name : String) (c : List Nat)
    (hmem : name ∈ tasks.map Prod.fst)
    (hc : FS.lookup fs name = some c)
    (hnodup : (tasks.map Prod.fst).Nodup)
    (hgz1 : ∀ t ∈ tasks, t.1 ++ ".gz" ≠ name)
    (hgz2 : ∀ t ∈ tasks, t.1 ≠ name ++ ".gz") :
    (closeModel gz fs tasks closeErr).2 = closeErr ∧
    archivedOrIntact (closeModel gz fs tasks closeErr).1 name c :=
  ⟨rfl, drainTasks_fate gz name c tasks fs hmem hc hnodup hgz1 hgz2⟩

theorem C6_witness :
    (closeModel id [("P.1", [1]), ("P.2", [2]), ("P", [])]
      [("P.1", ⟨false, false, false, false, false, []⟩),
        ("P.2", ⟨false, false, true, false, false, []⟩)] (some .closeErr)).2 =
      some .closeErr ∧
    archivedOrIntact (closeModel id [("P.1", [1]), ("P.2", [2]), ("P", [])]
      [("P.1", ⟨false, false, false, false, false, []⟩),
        ("P.2", ⟨false, false, true, false, false, []⟩)] (some .closeErr)).1
      "P.2" [2] :=
  C6_close_drains id [("P.1", [1]), ("P.2", [2]), ("P", [])]
    [("P.1", ⟨false, false, false, false, false, []⟩),
      ("P.2", ⟨false, false, true, false, false, []⟩)] (some .closeErr) "P.2" [2]
    (by decide) (by decide) (by decide) (by decide) (by decide)

end Logrotate
